import Mathlib

/-!
Otto: the Go application driver and the command meta-options.

A shallow embedding of

* `builtin/app/go/app.go`: `App.Compile`, `App.Build`, `App.DevDep`;
* `command/meta.go`: `DefaultOutputDir`, `FlagSetFlags`, `Meta.Core`, `Meta.FlagSet`.

The driver talks to collaborators that live outside these two files: the
directory backend, the bindata copier, packer, vagrant and the UI.  They are
taken as a record of functions (`Externals`) acting on a state `σ`, and every
call the driver makes is appended to a trace, so that "is invoked exactly
once" and "is never invoked" are statements about that trace.
-/

namespace Otto

/-! ## `path/filepath` (Unix flavour) -/

namespace filepath

/-- Split a path at every `/`, keeping empty elements. -/
def splitSlash : List Char → List (List Char)
  | [] => [[]]
  | c :: cs =>
    match splitSlash cs with
    | [] => [[]]
    | e :: es => if c = '/' then [] :: e :: es else (c :: e) :: es

/-- One step of `Clean`: the element stack (most recent first) after reading
one more path element.  Empty and `.` elements are dropped; `..` removes the
last real element, is kept when the path is relative and nothing can be
removed, and is dropped at the root. -/
def cleanStep (rooted : Bool) (stack : List (List Char)) (e : List Char) : List (List Char) :=
  if e = [] ∨ e = ['.'] then stack
  else if e = ['.', '.'] then
    match stack with
    | [] => if rooted then [] else [e]
    | top :: rest => if top = ['.', '.'] then e :: top :: rest else rest
  else e :: stack

/-- Go's `filepath.Clean`: the shortest path equivalent to the argument. -/
def Clean (path : String) : String :=
  let cs := path.toList
  if cs = [] then "."
  else
    let rooted := cs.head? = some '/'
    let stack := (splitSlash cs).foldl (cleanStep rooted) []
    let body := String.intercalate "/" (stack.reverse.map String.mk)
    if rooted then "/" ++ body
    else if stack = [] then "." else body

/-- Go's `filepath.Join`: leading empty elements are ignored, the rest is
joined with `/` and cleaned; with no non-empty element the result is empty. -/
def Join (elem : List String) : String :=
  match elem.dropWhile (fun e => e = "") with
  | [] => ""
  | rest => Clean (String.intercalate "/" rest)

/-- The part of a path up to and including its last `/`. -/
def dirPart (cs : List Char) : List Char :=
  (cs.reverse.dropWhile (fun c => c ≠ '/')).reverse

/-- Go's `filepath.Dir`: all but the last element of the path, cleaned. -/
def Dir (path : String) : String :=
  Clean (String.mk (dirPart path.toList))

end filepath

/-! ## Data model

Only the fields the two source files read are modelled.  Pointers that the
source dereferences without a check (`ctx`, `ctx.Appfile`,
`ctx.Appfile.Application`, `f`) are taken as valid; pointers it tests or that
may be nil by contract are `Option`s.  A Go `error` is its message. -/

/-- A Go `error` value, identified with its message; `nil` is `none` in an
`Option Error`. -/
abbrev Error := String

namespace appfile

/-- The `Application` block of an Appfile. -/
structure Application where
  Name : String
  deriving DecidableEq, Repr

/-- An `appfile.File`: the parsed Appfile and the path it was loaded from. -/
structure File where
  Path : String
  Application : Application
  deriving DecidableEq, Repr

end appfile

namespace directory

/-- Modelled from the spec: the `directory.InfraState` type is declared outside
the two source files; the spec gives the lifecycle state as one of pending,
provisioning, ready, failed, destroyed.  `ready` is `directory.InfraStateReady`. -/
inductive InfraState
  | pending
  | provisioning
  | ready
  | failed
  | destroyed
  deriving DecidableEq, Repr

/-- Modelled from the spec: the `directory.Infra` record is declared outside the
two source files; the spec describes it as an infrastructure target's identity
and lifecycle state.  `App.Build` reads `State` only. -/
structure Infra where
  Id : String
  State : InfraState
  deriving DecidableEq, Repr

end directory

namespace app

/-- The `app.Tuple` of a context; `App.Compile` reads `Infra` and `InfraFlavor`. -/
structure Tuple where
  App : String
  Infra : String
  InfraFlavor : String
  deriving DecidableEq, Repr

/-- An `app.Context`.  `Directory` and `Ui` are interface values, modelled as
handles naming the backend and the sink. -/
structure Context where
  Appfile : appfile.File
  Tuple : Tuple
  CacheDir : String
  Dir : String
  DevDepFragments : List String
  Directory : Nat
  Ui : Nat
  deriving DecidableEq, Repr

/-- The result of `App.Compile`. -/
structure CompileResult where
  DevDepFragmentPath : String
  deriving DecidableEq, Repr

/-- The result of `App.DevDep`. -/
structure DevDep where
  Files : List String
  deriving DecidableEq, Repr

end app

namespace bindata

/-- The `"path"` entry of the template context built by `App.Compile`. -/
structure PathContext where
  cache : String
  compiled : String
  working : String
  deriving DecidableEq, Repr

/-- The template context built by `App.Compile` (a `map[string]interface{}` with
exactly these three keys). -/
structure TemplateContext where
  name : String
  dev_fragments : List String
  path : PathContext
  deriving DecidableEq, Repr

/-- A `bindata.Data`.  Its `Asset` and `AssetDir` fields are the generated asset
table of the package, which is the same in every call and belongs to the
copier (`Externals.CopyDir`). -/
structure Data where
  Context : TemplateContext
  deriving DecidableEq, Repr

end bindata

namespace packer

/-- A `packer.Packer` as `App.Build` builds it. -/
structure Packer where
  Dir : String
  Ui : Nat
  deriving DecidableEq, Repr

end packer

namespace vagrant

/-- A `vagrant.BuildOptions` as `App.DevDep` builds it. -/
structure BuildOptions where
  Dir : String
  Script : String
  deriving DecidableEq, Repr

end vagrant

/-! ## Collaborators and the call trace -/

/-- A call made by the driver to one of its collaborators. -/
inductive Event
  | GetInfra (backend : Nat) (id : String)
  | CopyDir (data : bindata.Data) (dst : String) (pfx : String)
  | UiHeader (ui : Nat) (msg : String)
  | UiMessage (ui : Nat) (msg : String)
  | PackerExecute (p : packer.Packer) (args : List String)
  | VagrantBuild (ctx : app.Context) (opts : vagrant.BuildOptions)
  deriving DecidableEq, Repr

/-- Is the event an invocation of the provisioning tool (`Packer.Execute`)? -/
def Event.isPackerExecute : Event → Bool
  | .PackerExecute _ _ => true
  | _ => false

/-- Is the event a scripted environment build (`vagrant.Build`)? -/
def Event.isVagrantBuild : Event → Bool
  | .VagrantBuild _ _ => true
  | _ => false

/-- Is the event a message sent to a UI sink? -/
def Event.isUi : Event → Bool
  | .UiHeader _ _ => true
  | .UiMessage _ _ => true
  | _ => false

/-- The collaborators of the driver that are not part of the two source files.
Each acts on the state `σ` of the outside world (registry, disk, tools) and
returns what the Go call returns. -/
structure Externals (σ : Type) where
  /-- `appfile.File.ActiveInfrastructure`, converted to a `directory.InfraId`. -/
  ActiveInfrastructure : appfile.File → String
  /-- `directory.Backend.GetInfra`: a record, nil, or an error. -/
  GetInfra : Nat → String → σ → Except Error (Option directory.Infra) × σ
  /-- The text of `fmt.Sprintf("%#v", infra)`. -/
  formatInfra : directory.Infra → String
  /-- `bindata.Data.CopyDir(dst, prefix)`. -/
  CopyDir : bindata.Data → String → String → σ → Option Error × σ
  /-- `packer.Packer.Execute(args...)`. -/
  PackerExecute : packer.Packer → List String → σ → Option Error × σ
  /-- `vagrant.Build(ctx, opts)`. -/
  VagrantBuild : app.Context → vagrant.BuildOptions → σ → Option Error × σ

/-- The state threaded through the driver: the outside world and the calls made
so far, oldest first. -/
structure World (σ : Type) where
  ext : σ
  trace : List Event

namespace World

variable {σ : Type}

/-- Record a call and install the state it leaves. -/
def step (w : World σ) (e : Event) (s : σ) : World σ :=
  { ext := s, trace := w.trace ++ [e] }

/-- Call `ctx.Directory.GetInfra(id)`. -/
def getInfra (x : Externals σ) (backend : Nat) (id : String) (w : World σ) :
    Except Error (Option directory.Infra) × World σ :=
  ((x.GetInfra backend id w.ext).1, w.step (.GetInfra backend id) (x.GetInfra backend id w.ext).2)

/-- Call `data.CopyDir(dst, pfx)`. -/
def copyDir (x : Externals σ) (data : bindata.Data) (dst pfx : String) (w : World σ) :
    Option Error × World σ :=
  ((x.CopyDir data dst pfx w.ext).1, w.step (.CopyDir data dst pfx) (x.CopyDir data dst pfx w.ext).2)

/-- Call `ui.Header(msg)`. -/
def uiHeader (ui : Nat) (msg : String) (w : World σ) : World σ :=
  w.step (.UiHeader ui msg) w.ext

/-- Call `ui.Message(msg)`. -/
def uiMessage (ui : Nat) (msg : String) (w : World σ) : World σ :=
  w.step (.UiMessage ui msg) w.ext

/-- Call `p.Execute(args...)`. -/
def packerExecute (x : Externals σ) (p : packer.Packer) (args : List String) (w : World σ) :
    Option Error × World σ :=
  ((x.PackerExecute p args w.ext).1, w.step (.PackerExecute p args) (x.PackerExecute p args w.ext).2)

/-- Call `vagrant.Build(ctx, opts)`. -/
def vagrantBuild (x : Externals σ) (ctx : app.Context) (opts : vagrant.BuildOptions)
    (w : World σ) : Option Error × World σ :=
  ((x.VagrantBuild ctx opts w.ext).1, w.step (.VagrantBuild ctx opts) (x.VagrantBuild ctx opts w.ext).2)

end World

/-! ## `builtin/app/go/app.go` -/

/-- The error `App.Build` makes when the infrastructure is not ready. -/
def errInfraNotBuilt : Error :=
  "Infrastructure for this application hasn't been built yet.\n" ++
  "The build step requires this because the target infrastructure\n" ++
  "as well as its final properties can affect the build process.\n" ++
  "Please run `otto infra` to build the underlying infrastructure,\n" ++
  "then run `otto build` again."

/-- The explanation `App.DevDep` sends to the UI before building. -/
def devDepNotice : String :=
  "To ensure cross-platform compatibility, we'll use Vagrant to\n" ++
  "build this application. This is slow, and in a lot of cases we\n" ++
  "can do something faster. Future versions of Otto will detect and\n" ++
  "do this. As long as the application doesn't change, Otto will\n" ++
  "cache the results of this build.\n\n"

namespace App

variable {σ : Type}

/-- The template data `App.Compile` builds from the context. -/
def compileData (ctx : app.Context) : bindata.Data :=
  { Context :=
      { name := ctx.Appfile.Application.Name
        dev_fragments := ctx.DevDepFragments
        path :=
          { cache := ctx.CacheDir
            compiled := ctx.Dir
            working := filepath.Dir ctx.Appfile.Path } } }

/-- `fmt.Sprintf("data/%s-%s", ctx.Tuple.Infra, ctx.Tuple.InfraFlavor)`. -/
def flavorPrefix (ctx : app.Context) : String :=
  "data/" ++ ctx.Tuple.Infra ++ "-" ++ ctx.Tuple.InfraFlavor

/-- `App.Compile`. -/
def Compile (x : Externals σ) (ctx : app.Context) (w : World σ) :
    Except Error app.CompileResult × World σ :=
  let data := compileData ctx
  -- Copy all the common files
  match w.copyDir x data ctx.Dir "data/common" with
  | (some err, w1) => (.error err, w1)
  | (none, w1) =>
    -- Copy the infrastructure specific files
    match w1.copyDir x data ctx.Dir (flavorPrefix ctx) with
    | (some err, w2) => (.error err, w2)
    | (none, w2) =>
      (.ok { DevDepFragmentPath :=
              filepath.Join [ctx.Dir, "dev-dep/build/Vagrantfile.fragment"] }, w2)

/-- `App.Build`. -/
def Build (x : Externals σ) (ctx : app.Context) (w : World σ) : Option Error × World σ :=
  -- Get the infrastructure state
  match w.getInfra x ctx.Directory (x.ActiveInfrastructure ctx.Appfile) with
  | (.error err, w1) => (some err, w1)
  | (.ok none, w1) => (some errInfraNotBuilt, w1)
  | (.ok (some infra), w1) =>
    if infra.State ≠ directory.InfraState.ready then (some errInfraNotBuilt, w1)
    else
      let w2 := w1.uiMessage ctx.Ui (x.formatInfra infra)
      w2.packerExecute x { Dir := ctx.Dir, Ui := ctx.Ui } ["version"]

/-- `App.DevDep`.  The destination context is not read. -/
def DevDep (x : Externals σ) (_dst src : app.Context) (w : World σ) :
    Except Error app.DevDep × World σ :=
  let w1 := w.uiHeader src.Ui
    ("Building the dev dependency for '" ++ src.Appfile.Application.Name ++ "'")
  let w2 := w1.uiMessage src.Ui devDepNotice
  match w2.vagrantBuild x src
      { Dir := filepath.Join [src.Dir, "dev-dep/build"], Script := "/otto/build.sh" } with
  | (some err, w3) => (.error err, w3)
  | (none, w3) => (.ok { Files := ["dev-dep-output"] }, w3)

end App

/-- The options `App.DevDep` passes to `vagrant.Build` for a source context. -/
def devDepBuildOptions (src : app.Context) : vagrant.BuildOptions :=
  { Dir := filepath.Join [src.Dir, "dev-dep/build"], Script := "/otto/build.sh" }

/-! ## `command/meta.go` -/

namespace otto

/-- An `otto.CoreConfig`.  `Meta.Core` writes `Appfile` and `OutputDir`; the
other fields, declared outside the two source files, are carried as `rest`. -/
structure CoreConfig (ρ : Type) where
  Appfile : Option appfile.File
  OutputDir : String
  rest : ρ
  deriving DecidableEq, Repr

end otto

namespace flag

/-- The `flag.ErrorHandling` of a flag set. -/
inductive ErrorHandling
  | ContinueOnError
  | ExitOnError
  | PanicOnError
  deriving DecidableEq, Repr

/-- The string field of `Meta` a registered flag writes to. -/
inductive Target
  | flagAppfile
  | flagOutputDir
  deriving DecidableEq, Repr

/-- A registered flag: name, usage, default value, and the variable it sets. -/
structure Flag where
  Name : String
  Usage : String
  DefValue : String
  target : Target
  deriving DecidableEq, Repr

/-- Where a flag set writes its error text. -/
inductive Output
  | stderr
  | uiErrorLines (ui : Nat)
  deriving DecidableEq, Repr

/-- A `flag.FlagSet`: its name, error handling, registered flags in order of
registration, and output. -/
structure FlagSet where
  name : String
  errorHandling : ErrorHandling
  formal : List Flag
  output : Output
  deriving DecidableEq, Repr

/-- `flag.NewFlagSet`. -/
def NewFlagSet (name : String) (errorHandling : ErrorHandling) : FlagSet :=
  { name := name, errorHandling := errorHandling, formal := [], output := .stderr }

/-- Is a flag of this name registered? -/
def FlagSet.registers (f : FlagSet) (name : String) : Bool :=
  f.formal.any (fun fl => fl.Name == name)

end flag

/-- The default filename for the Appfile. -/
def DefaultAppfile : String := "Appfile"

/-- The default directory for data output. -/
def DefaultOutputDir : String := "otto"

/-- The `FlagSetFlags` type, a Go `uint`. -/
abbrev FlagSetFlags := Nat

/-- First line of the constant block: the explicit value 0. -/
def FlagSetNone : FlagSetFlags := 0

/-- Second line of the constant block: `iota`, which is 1 there. -/
def FlagSetAppfile : FlagSetFlags := 1

/-- Third line of the constant block: `iota` again, which is 2 there. -/
def FlagSetOutputDir : FlagSetFlags := 2

/-- The meta-options available on all or most commands.  `CoreConfig` is a
pointer, `none` when nil. -/
structure Meta (ρ : Type) where
  CoreConfig : Option (otto.CoreConfig ρ)
  Ui : Nat
  flagAppfile : String
  flagOutputDir : String
  deriving DecidableEq, Repr

namespace Meta

variable {ρ κ : Type}

/-- `Meta.Core`.  `NewCore` is `otto.NewCore`, declared outside the two source
files.  The result is `none` when `m.CoreConfig` is nil (the dereference
panics); otherwise it is what `NewCore` returns for the local copy `config`,
together with `m` after the call. -/
def Core (NewCore : otto.CoreConfig ρ → Except Error κ) (m : Meta ρ) (f : appfile.File) :
    Option (Except Error κ × Meta ρ) :=
  let outputDir := if m.flagOutputDir ≠ "" then m.flagOutputDir else DefaultOutputDir
  match m.CoreConfig with
  | none => none
  | some c =>
    let config : otto.CoreConfig ρ :=
      { c with
        Appfile := some f
        OutputDir := filepath.Join [filepath.Dir f.Path, outputDir] }
    some (NewCore config, m)

/-- `f.StringVar(&m.<target>, name, value, usage)`: the variable is set to the
default value and the flag is registered. -/
def StringVar (f : flag.FlagSet) (m : Meta ρ) (target : flag.Target)
    (name value usage : String) : flag.FlagSet × Meta ρ :=
  ({ f with formal := f.formal ++ [{ Name := name, Usage := usage, DefValue := value, target := target }] },
   match target with
   | .flagAppfile => { m with flagAppfile := value }
   | .flagOutputDir => { m with flagOutputDir := value })

/-- `Meta.FlagSet`: the flag set with the common flags selected by `fs`, and
`m` after the call.  The background reader that forwards the flag set's error
text to the UI line by line is recorded as the flag set's output. -/
def FlagSet (m : Meta ρ) (n : String) (fs : FlagSetFlags) : flag.FlagSet × Meta ρ :=
  let f := flag.NewFlagSet n .ContinueOnError
  let r1 := if fs &&& FlagSetAppfile ≠ 0 then StringVar f m .flagAppfile "appfile" "" "" else (f, m)
  let r2 :=
    if fs &&& FlagSetOutputDir ≠ 0 then StringVar r1.1 r1.2 .flagOutputDir "output" "" "" else r1
  ({ r2.1 with output := .uiErrorLines m.Ui }, r2.2)

end Meta

/-! ## The template copier, from the spec -/

/-- Modelled from the spec: the output disk the copier writes to, a map from
path to file content. -/
abbrev Disk := String → Option String

/-- Write one file, replacing what was at the path. -/
def Disk.write (d : Disk) (p : String) (content : String) : Disk :=
  fun q => if q = p then some content else d q

/-- Modelled from the spec: the embedded asset table and the templating of the
copier, which live outside the two source files.  `AssetDir` lists the files
of a logical tree (relative name and template text) or reports that the tree is
not found; `render` substitutes the context into a template; `writable` tells
which paths of the disk accept a write. -/
structure Assets where
  AssetDir : String → Except Error (List (String × String))
  render : bindata.TemplateContext → String → String
  writable : String → Bool

/-- Modelled from the spec: copy the listed files below `dst` in order, each
rendered with the context; a write that fails stops the copy and what was
written before stays on the disk. -/
def writeFiles (t : Assets) (data : bindata.Data) (dst : String) :
    List (String × String) → Disk → Option Error × Disk
  | [], d => (none, d)
  | (rel, body) :: rest, d =>
    if t.writable (filepath.Join [dst, rel]) then
      writeFiles t data dst rest
        (d.write (filepath.Join [dst, rel]) (t.render data.Context body))
    else (some ("write failure: " ++ filepath.Join [dst, rel]), d)

/-- Modelled from the spec: `bindata.Data.CopyDir`, the Template Materializer.
Copies every file under the logical tree `pfx` into `dst`, applying the
substitution context; a tree that is not found is an error and writes nothing. -/
def specCopyDir (t : Assets) (data : bindata.Data) (dst pfx : String) (d : Disk) :
    Option Error × Disk :=
  match t.AssetDir pfx with
  | .error e => (some e, d)
  | .ok files => writeFiles t data dst files d

/-- Perform a list of writes (path and content), oldest first. -/
def applyWrites : List (String × String) → Disk → Disk
  | [], d => d
  | (p, c) :: rest, d => applyWrites rest (d.write p c)

/-- The content a list of writes leaves at a path: that of the last write to
it, if any. -/
def lastWrite : List (String × String) → String → Option String
  | [], _ => none
  | (p, c) :: rest, q =>
    match lastWrite rest q with
    | some c2 => some c2
    | none => if q = p then some c else none

/-- The collaborators with the copier modelled from the spec. -/
def specExternals (t : Assets) (x : Externals Disk) : Externals Disk :=
  { x with CopyDir := specCopyDir t }

/-! ## Fixtures -/

/-- An Appfile for the application "svc", loaded from "/proj/Appfile". -/
def demoFile : appfile.File :=
  { Path := "/proj/Appfile", Application := { Name := "svc" } }

/-- The context {name: "svc", infra: ("aws","vpc"), cacheDir: "/c", dir: "/out"}. -/
def demoContext : app.Context :=
  { Appfile := demoFile
    Tuple := { App := "go", Infra := "aws", InfraFlavor := "vpc" }
    CacheDir := "/c"
    Dir := "/out"
    DevDepFragments := []
    Directory := 0
    Ui := 0 }

/-- Collaborators with fixed answers: the registry answers `lookup`, the
copier answers `copy pfx`, packer answers `tool`, vagrant answers `vm`.  The
outside state counts the calls answered. -/
def demoExternals (lookup : Except Error (Option directory.Infra))
    (copy : String → Option Error) (tool vm : Option Error) : Externals Nat :=
  { ActiveInfrastructure := fun _ => "aws"
    GetInfra := fun _ _ n => (lookup, n + 1)
    formatInfra := fun i => "&directory.Infra[" ++ i.Id ++ "]"
    CopyDir := fun _ _ pfx n => (copy pfx, n + 1)
    PackerExecute := fun _ _ n => (tool, n + 1)
    VagrantBuild := fun _ _ n => (vm, n + 1) }

/-- The context of the source application "api", compiled into "/out/api". -/
def apiContext : app.Context :=
  { demoContext with
    Appfile := { Path := "/proj/api/Appfile", Application := { Name := "api" } }
    Dir := "/out/api" }

/-- The context of the destination application "web". -/
def webContext : app.Context :=
  { demoContext with
    Appfile := { Path := "/proj/web/Appfile", Application := { Name := "web" } }
    Dir := "/out/web" }

/-- A copier that finds every tree but the flavor tree "data/aws-vpc". -/
def noFlavorCopy (pfx : String) : Option Error :=
  if pfx = "data/aws-vpc" then some "Asset data/aws-vpc not found" else none

/-- An asset table with a common tree of two files and no flavor tree; every
path is writable and rendering appends the application name. -/
def demoAssets : Assets :=
  { AssetDir := fun pfx =>
      if pfx = "data/common" then
        .ok [("build/template.json", "builder for "), ("dev/Vagrantfile", "box for ")]
      else .error ("Asset " ++ pfx ++ " not found")
    render := fun c body => body ++ c.name
    writable := fun _ => true }

/-- An asset table with a common tree of two files and an "aws-vpc" flavor tree
that holds one file of its own and one that replaces a common file. -/
def flavorAssets : Assets :=
  { AssetDir := fun pfx =>
      if pfx = "data/common" then
        .ok [("build/template.json", "builder for "), ("dev/Vagrantfile", "box for ")]
      else if pfx = "data/aws-vpc" then
        .ok [("build/template.json", "vpc builder for "), ("build/vpc.tf", "network of ")]
      else .error ("Asset " ++ pfx ++ " not found")
    render := fun c body => body ++ c.name
    writable := fun _ => true }

/-- A core configuration with output directory "unset" and no Appfile. -/
def demoCoreConfig : otto.CoreConfig Nat :=
  { Appfile := none, OutputDir := "unset", rest := 7 }

/-- Meta-options with a core configuration and the given `-output` value. -/
def demoMeta (output : String) : Meta Nat :=
  { CoreConfig := some demoCoreConfig, Ui := 0, flagAppfile := "", flagOutputDir := output }

/-- An empty disk. -/
def emptyDisk : Disk := fun _ => none

/-- Collaborators over a disk that succeed and leave the disk alone. -/
def idleExternals : Externals Disk :=
  { ActiveInfrastructure := fun _ => "aws"
    GetInfra := fun _ _ d => (.ok none, d)
    formatInfra := fun i => i.Id
    CopyDir := fun _ _ _ d => (none, d)
    PackerExecute := fun _ _ d => (none, d)
    VagrantBuild := fun _ _ d => (none, d) }

/-- The world before any call. -/
def demoWorld : World Nat := { ext := 0, trace := [] }

/-! ## The path functions on examples -/

/-- The path functions agree with Go on the paths the driver meets and on the
corner cases of `Clean`. -/
theorem filepath_examples :
    filepath.Join ["/out", "dev-dep/build"] = "/out/dev-dep/build" ∧
    filepath.Join ["/out/", "dev-dep/build/Vagrantfile.fragment"] =
      "/out/dev-dep/build/Vagrantfile.fragment" ∧
    filepath.Join ["", "dev-dep/build"] = "dev-dep/build" ∧
    filepath.Join ["a/../../b/", "x"] = "../b/x" ∧
    filepath.Join ["/../a//b/./c/..", ""] = "/a/b" ∧
    filepath.Join ["", ""] = "" ∧
    filepath.Dir "/proj/Appfile" = "/proj" ∧
    filepath.Dir "Appfile" = "." ∧
    filepath.Dir "/Appfile" = "/" ∧
    filepath.Dir "" = "." ∧
    filepath.Clean "" = "." ∧
    filepath.Clean "a/.." = "." ∧
    filepath.Clean "/.." = "/" ∧
    filepath.Clean "../../a" = "../../a" := by
  decide

/-! ## `App.Build` -/

section Build

variable {σ : Type}

/-- C1: when the registry lookup of `App.Build` returns no error and the
infrastructure record is nil or in any state other than ready, `Build` returns
the not-built error and the provisioning tool is never invoked: the lookup is
the only call made. -/
theorem Build_gate_blocks (x : Externals σ) (ctx : app.Context) (w : World σ)
    (infra : Option directory.Infra)
    (hlookup :
      (x.GetInfra ctx.Directory (x.ActiveInfrastructure ctx.Appfile) w.ext).1 = .ok infra)
    (hstate : infra = none ∨ ∃ i, infra = some i ∧ i.State ≠ directory.InfraState.ready) :
    (App.Build x ctx w).1 = some errInfraNotBuilt ∧
    (App.Build x ctx w).2.trace =
      w.trace ++ [Event.GetInfra ctx.Directory (x.ActiveInfrastructure ctx.Appfile)] ∧
    (App.Build x ctx w).2.trace.filter Event.isPackerExecute =
      w.trace.filter Event.isPackerExecute := by
  rcases hstate with rfl | ⟨i, rfl, hi⟩
  · simp [App.Build, World.getInfra, World.step, hlookup, Event.isPackerExecute]
  · simp [App.Build, World.getInfra, World.step, hlookup, hi, Event.isPackerExecute]

/-- C1 at the scenario of the spec: the record is in state provisioning. -/
theorem Build_gate_blocks_witness :
    (App.Build (demoExternals (.ok (some ⟨"aws", .provisioning⟩)) (fun _ => none) none none)
        demoContext demoWorld).1 = some errInfraNotBuilt ∧
    (App.Build (demoExternals (.ok (some ⟨"aws", .provisioning⟩)) (fun _ => none) none none)
        demoContext demoWorld).2.trace = [Event.GetInfra 0 "aws"] ∧
    (App.Build (demoExternals (.ok none) (fun _ => none) none none)
        demoContext demoWorld).1 = some errInfraNotBuilt :=
  ⟨(Build_gate_blocks _ demoContext demoWorld (some ⟨"aws", .provisioning⟩) rfl
      (Or.inr ⟨_, rfl, by decide⟩)).1,
   (Build_gate_blocks _ demoContext demoWorld (some ⟨"aws", .provisioning⟩) rfl
      (Or.inr ⟨_, rfl, by decide⟩)).2.1,
   (Build_gate_blocks (demoExternals (.ok none) (fun _ => none) none none)
      demoContext demoWorld none rfl (Or.inl rfl)).1⟩

/-- C2 as stated fails: in the scenario of the spec (record in state ready)
with a provisioning tool that exits with an error, `App.Build` does not return
success; it returns the tool's error. -/
theorem Build_ready_can_fail :
    ((demoExternals (.ok (some ⟨"aws", .ready⟩)) (fun _ => none) (some "exit status 1") none).GetInfra
        demoContext.Directory "aws" demoWorld.ext).1 = .ok (some ⟨"aws", .ready⟩) ∧
    (App.Build (demoExternals (.ok (some ⟨"aws", .ready⟩)) (fun _ => none) (some "exit status 1") none)
        demoContext demoWorld).1 = some "exit status 1" ∧
    (App.Build (demoExternals (.ok (some ⟨"aws", .ready⟩)) (fun _ => none) (some "exit status 1") none)
        demoContext demoWorld).1 ≠ none :=
  ⟨rfl, rfl, by decide⟩

/-- C2, amended: when the registry lookup returns a record in state ready,
`App.Build` invokes the provisioning tool exactly once, against the build
directory `ctx.Dir` with the single argument "version", and returns what that
invocation returns: success when the tool succeeds, the tool's error
otherwise. -/
theorem Build_ready_runs_tool_once (x : Externals σ) (ctx : app.Context) (w : World σ)
    (i : directory.Infra)
    (hlookup :
      (x.GetInfra ctx.Directory (x.ActiveInfrastructure ctx.Appfile) w.ext).1 = .ok (some i))
    (hready : i.State = directory.InfraState.ready) :
    (App.Build x ctx w).1 =
      (x.PackerExecute { Dir := ctx.Dir, Ui := ctx.Ui } ["version"]
        (x.GetInfra ctx.Directory (x.ActiveInfrastructure ctx.Appfile) w.ext).2).1 ∧
    (App.Build x ctx w).2.trace.filter Event.isPackerExecute =
      w.trace.filter Event.isPackerExecute ++
        [Event.PackerExecute { Dir := ctx.Dir, Ui := ctx.Ui } ["version"]] := by
  simp [App.Build, World.getInfra, World.uiMessage, World.packerExecute, World.step, hlookup,
    hready, Event.isPackerExecute]

/-- C2 amended, at the scenario of the spec: the tool runs once against "/out"
and `Build` succeeds when the tool does. -/
theorem Build_ready_runs_tool_once_witness :
    (App.Build (demoExternals (.ok (some ⟨"aws", .ready⟩)) (fun _ => none) none none)
        demoContext demoWorld).1 = none ∧
    (App.Build (demoExternals (.ok (some ⟨"aws", .ready⟩)) (fun _ => none) none none)
        demoContext demoWorld).2.trace.filter Event.isPackerExecute =
      [Event.PackerExecute { Dir := "/out", Ui := 0 } ["version"]] :=
  Build_ready_runs_tool_once (demoExternals (.ok (some ⟨"aws", .ready⟩)) (fun _ => none) none none)
    demoContext demoWorld ⟨"aws", .ready⟩ rfl rfl

/-- C9: a lookup error is returned by `App.Build` unchanged; on every failing
gate path (lookup error, nil record, record not ready) no UI message is
emitted and the lookup is the only call; when the gate passes, the record is
sent to the UI exactly once, after the lookup and right before the
provisioning tool is invoked. -/
theorem Build_ui_only_after_gate (x : Externals σ) (ctx : app.Context) (w : World σ) :
    (∀ e, (x.GetInfra ctx.Directory (x.ActiveInfrastructure ctx.Appfile) w.ext).1 = .error e →
      (App.Build x ctx w).1 = some e ∧
      (App.Build x ctx w).2.trace.filter Event.isUi = w.trace.filter Event.isUi ∧
      (App.Build x ctx w).2.trace =
        w.trace ++ [Event.GetInfra ctx.Directory (x.ActiveInfrastructure ctx.Appfile)]) ∧
    (∀ infra, (x.GetInfra ctx.Directory (x.ActiveInfrastructure ctx.Appfile) w.ext).1 = .ok infra →
      (infra = none ∨ ∃ i, infra = some i ∧ i.State ≠ directory.InfraState.ready) →
      (App.Build x ctx w).2.trace.filter Event.isUi = w.trace.filter Event.isUi) ∧
    (∀ i, (x.GetInfra ctx.Directory (x.ActiveInfrastructure ctx.Appfile) w.ext).1 = .ok (some i) →
      i.State = directory.InfraState.ready →
      (App.Build x ctx w).2.trace.filter Event.isUi =
        w.trace.filter Event.isUi ++ [Event.UiMessage ctx.Ui (x.formatInfra i)] ∧
      (App.Build x ctx w).2.trace =
        w.trace ++
          [Event.GetInfra ctx.Directory (x.ActiveInfrastructure ctx.Appfile),
           Event.UiMessage ctx.Ui (x.formatInfra i),
           Event.PackerExecute { Dir := ctx.Dir, Ui := ctx.Ui } ["version"]]) := by
  refine ⟨?_, ?_, ?_⟩
  · intro e he
    simp [App.Build, World.getInfra, World.step, he, Event.isUi]
  · rintro infra hlookup (rfl | ⟨i, rfl, hi⟩)
    · simp [App.Build, World.getInfra, World.step, hlookup, Event.isUi]
    · simp [App.Build, World.getInfra, World.step, hlookup, hi, Event.isUi]
  · intro i hlookup hready
    simp [App.Build, World.getInfra, World.uiMessage, World.packerExecute, World.step, hlookup,
      hready, Event.isUi]

/-- C9 at concrete inputs: a failing lookup, a record that is provisioning, and
a record that is ready. -/
theorem Build_ui_only_after_gate_witness :
    ((App.Build (demoExternals (.error "registry down") (fun _ => none) none none)
        demoContext demoWorld).1 = some "registry down" ∧
      (App.Build (demoExternals (.error "registry down") (fun _ => none) none none)
        demoContext demoWorld).2.trace.filter Event.isUi = []) ∧
    (App.Build (demoExternals (.ok (some ⟨"aws", .provisioning⟩)) (fun _ => none) none none)
        demoContext demoWorld).2.trace.filter Event.isUi = [] ∧
    (App.Build (demoExternals (.ok (some ⟨"aws", .ready⟩)) (fun _ => none) none none)
        demoContext demoWorld).2.trace =
      [Event.GetInfra 0 "aws", Event.UiMessage 0 "&directory.Infra[aws]",
       Event.PackerExecute { Dir := "/out", Ui := 0 } ["version"]] :=
  ⟨⟨((Build_ui_only_after_gate (demoExternals (.error "registry down") (fun _ => none) none none)
        demoContext demoWorld).1 "registry down" rfl).1,
    ((Build_ui_only_after_gate (demoExternals (.error "registry down") (fun _ => none) none none)
        demoContext demoWorld).1 "registry down" rfl).2.1⟩,
   (Build_ui_only_after_gate
      (demoExternals (.ok (some ⟨"aws", .provisioning⟩)) (fun _ => none) none none)
      demoContext demoWorld).2.1 (some ⟨"aws", .provisioning⟩) rfl (Or.inr ⟨_, rfl, by decide⟩),
   ((Build_ui_only_after_gate
      (demoExternals (.ok (some ⟨"aws", .ready⟩)) (fun _ => none) none none)
      demoContext demoWorld).2.2 ⟨"aws", .ready⟩ rfl rfl).2⟩

end Build

/-! ## `App.DevDep` -/

section DevDep

variable {σ : Type}

/-- C3 as stated fails: invoked twice in succession with the same source
context, `App.DevDep` runs the scripted vagrant build in the second invocation
too (two builds in the trace, two calls answered by the outside world), and a
second build that fails makes the second invocation return that error, not a
cached result. -/
theorem DevDep_second_call_builds_again :
    ((App.DevDep (demoExternals (.ok none) (fun _ => none) none none) webContext apiContext
        (App.DevDep (demoExternals (.ok none) (fun _ => none) none none) webContext apiContext
          demoWorld).2).2.trace.filter Event.isVagrantBuild =
      [Event.VagrantBuild apiContext ⟨"/out/api/dev-dep/build", "/otto/build.sh"⟩,
       Event.VagrantBuild apiContext ⟨"/out/api/dev-dep/build", "/otto/build.sh"⟩]) ∧
    (App.DevDep (demoExternals (.ok none) (fun _ => none) none none) webContext apiContext
        (App.DevDep (demoExternals (.ok none) (fun _ => none) none none) webContext apiContext
          demoWorld).2).2.ext = 2 ∧
    (App.DevDep (demoExternals (.ok none) (fun _ => none) none none) webContext apiContext
        demoWorld).1 = .ok ⟨["dev-dep-output"]⟩ ∧
    (App.DevDep (demoExternals (.ok none) (fun _ => none) none (some "vagrant: exit status 1"))
        webContext apiContext
        (App.DevDep (demoExternals (.ok none) (fun _ => none) none none) webContext apiContext
          demoWorld).2).1 = .error "vagrant: exit status 1" :=
  ⟨by decide, rfl, rfl, rfl⟩

/-- C3, amended: `App.DevDep` keeps no cache.  Invoked twice in succession with
the same source context, the second invocation performs the scripted vagrant
build once more, on the state the first invocation left, and returns the
result of that second build: the `DevDep` when it succeeds, its error when it
fails. -/
theorem DevDep_builds_on_every_call (x : Externals σ) (dst src : app.Context) (w : World σ) :
    (App.DevDep x dst src (App.DevDep x dst src w).2).2.trace.filter Event.isVagrantBuild =
      (App.DevDep x dst src w).2.trace.filter Event.isVagrantBuild ++
        [Event.VagrantBuild src (devDepBuildOptions src)] ∧
    (App.DevDep x dst src w).2.trace.filter Event.isVagrantBuild =
      w.trace.filter Event.isVagrantBuild ++ [Event.VagrantBuild src (devDepBuildOptions src)] ∧
    (App.DevDep x dst src (App.DevDep x dst src w).2).1 =
      match (x.VagrantBuild src (devDepBuildOptions src) (App.DevDep x dst src w).2.ext).1 with
      | some err => .error err
      | none => .ok { Files := ["dev-dep-output"] } := by
  have key : ∀ v : World σ,
      (App.DevDep x dst src v).2.trace.filter Event.isVagrantBuild =
        v.trace.filter Event.isVagrantBuild ++ [Event.VagrantBuild src (devDepBuildOptions src)] ∧
      (App.DevDep x dst src v).1 =
        match (x.VagrantBuild src (devDepBuildOptions src) v.ext).1 with
        | some err => .error err
        | none => .ok { Files := ["dev-dep-output"] } := by
    intro v
    unfold App.DevDep
    simp only [World.vagrantBuild, World.uiMessage, World.uiHeader, World.step,
      devDepBuildOptions]
    cases h : (x.VagrantBuild src
        { Dir := filepath.Join [src.Dir, "dev-dep/build"], Script := "/otto/build.sh" } v.ext).1 <;>
      simp [Event.isVagrantBuild]
  exact ⟨(key _).1, (key w).1, (key _).2⟩

/-- C4: for every destination and source context, `App.DevDep` announces the
build on the source UI and runs the scripted environment build on the source
context with build directory `Join(src.Dir, "dev-dep/build")` and entry script
"/otto/build.sh"; when the build succeeds it returns the `DevDep` whose file
list is exactly ["dev-dep-output"], and when it fails it returns that error
unchanged and no `DevDep`. -/
theorem DevDep_runs_scripted_build (x : Externals σ) (dst src : app.Context) (w : World σ) :
    (App.DevDep x dst src w).2.trace =
      w.trace ++
        [Event.UiHeader src.Ui
           ("Building the dev dependency for '" ++ src.Appfile.Application.Name ++ "'"),
         Event.UiMessage src.Ui devDepNotice,
         Event.VagrantBuild src
           { Dir := filepath.Join [src.Dir, "dev-dep/build"], Script := "/otto/build.sh" }] ∧
    ((x.VagrantBuild src
          { Dir := filepath.Join [src.Dir, "dev-dep/build"], Script := "/otto/build.sh" }
          w.ext).1 = none →
      (App.DevDep x dst src w).1 = .ok { Files := ["dev-dep-output"] }) ∧
    (∀ err,
      (x.VagrantBuild src
          { Dir := filepath.Join [src.Dir, "dev-dep/build"], Script := "/otto/build.sh" }
          w.ext).1 = some err →
      (App.DevDep x dst src w).1 = .error err) := by
  unfold App.DevDep
  simp only [World.vagrantBuild, World.uiMessage, World.uiHeader, World.step]
  cases h : (x.VagrantBuild src
      { Dir := filepath.Join [src.Dir, "dev-dep/build"], Script := "/otto/build.sh" } w.ext).1 <;>
    simp

/-- C4 at the scenario of the spec: destination "web", source "api", with a
build that succeeds and with a build that fails. -/
theorem DevDep_runs_scripted_build_witness :
    (App.DevDep (demoExternals (.ok none) (fun _ => none) none none) webContext apiContext
        demoWorld).1 = .ok { Files := ["dev-dep-output"] } ∧
    (App.DevDep (demoExternals (.ok none) (fun _ => none) none (some "vagrant: exit status 1"))
        webContext apiContext demoWorld).1 = .error "vagrant: exit status 1" ∧
    (App.DevDep (demoExternals (.ok none) (fun _ => none) none none) webContext apiContext
        demoWorld).2.trace =
      [Event.UiHeader 0 "Building the dev dependency for 'api'",
       Event.UiMessage 0 devDepNotice,
       Event.VagrantBuild apiContext ⟨"/out/api/dev-dep/build", "/otto/build.sh"⟩] :=
  ⟨(DevDep_runs_scripted_build (demoExternals (.ok none) (fun _ => none) none none)
      webContext apiContext demoWorld).2.1 rfl,
   (DevDep_runs_scripted_build
      (demoExternals (.ok none) (fun _ => none) none (some "vagrant: exit status 1"))
      webContext apiContext demoWorld).2.2 _ rfl,
   (DevDep_runs_scripted_build (demoExternals (.ok none) (fun _ => none) none none)
      webContext apiContext demoWorld).1⟩

end DevDep

/-! ## `App.Compile` -/

section Compile

variable {σ : Type}

/-- C6: `App.Compile` copies the "data/common" tree into `ctx.Dir` first and
then the "data/<infra>-<flavor>" tree into `ctx.Dir`.  A failed common copy is
returned unchanged and the flavor copy is not attempted; a failed flavor copy
is returned unchanged; so `Compile` fails exactly when one of the two copies
fails.  Otherwise it returns the `CompileResult` whose `DevDepFragmentPath` is
`Join(ctx.Dir, "dev-dep/build/Vagrantfile.fragment")`. -/
theorem Compile_copies_common_then_flavor (x : Externals σ) (ctx : app.Context) (w : World σ) :
    (∀ e, (x.CopyDir (App.compileData ctx) ctx.Dir "data/common" w.ext).1 = some e →
      (App.Compile x ctx w).1 = .error e ∧
      (App.Compile x ctx w).2.trace =
        w.trace ++ [Event.CopyDir (App.compileData ctx) ctx.Dir "data/common"]) ∧
    ((x.CopyDir (App.compileData ctx) ctx.Dir "data/common" w.ext).1 = none →
      (App.Compile x ctx w).2.trace =
        w.trace ++
          [Event.CopyDir (App.compileData ctx) ctx.Dir "data/common",
           Event.CopyDir (App.compileData ctx) ctx.Dir
             ("data/" ++ ctx.Tuple.Infra ++ "-" ++ ctx.Tuple.InfraFlavor)] ∧
      (∀ e,
        (x.CopyDir (App.compileData ctx) ctx.Dir
            ("data/" ++ ctx.Tuple.Infra ++ "-" ++ ctx.Tuple.InfraFlavor)
            (x.CopyDir (App.compileData ctx) ctx.Dir "data/common" w.ext).2).1 = some e →
        (App.Compile x ctx w).1 = .error e) ∧
      ((x.CopyDir (App.compileData ctx) ctx.Dir
            ("data/" ++ ctx.Tuple.Infra ++ "-" ++ ctx.Tuple.InfraFlavor)
            (x.CopyDir (App.compileData ctx) ctx.Dir "data/common" w.ext).2).1 = none →
        (App.Compile x ctx w).1 =
          .ok { DevDepFragmentPath :=
                  filepath.Join [ctx.Dir, "dev-dep/build/Vagrantfile.fragment"] })) ∧
    ((∃ e, (App.Compile x ctx w).1 = .error e) ↔
      ((x.CopyDir (App.compileData ctx) ctx.Dir "data/common" w.ext).1 ≠ none ∨
       (x.CopyDir (App.compileData ctx) ctx.Dir
            ("data/" ++ ctx.Tuple.Infra ++ "-" ++ ctx.Tuple.InfraFlavor)
            (x.CopyDir (App.compileData ctx) ctx.Dir "data/common" w.ext).2).1 ≠ none)) := by
  unfold App.Compile
  simp only [World.copyDir, World.step, App.flavorPrefix]
  rcases x.CopyDir (App.compileData ctx) ctx.Dir "data/common" w.ext with ⟨_ | e1, s1⟩
  · dsimp only
    rcases x.CopyDir (App.compileData ctx) ctx.Dir
        ("data/" ++ ctx.Tuple.Infra ++ "-" ++ ctx.Tuple.InfraFlavor) s1 with ⟨_ | e2, s2⟩ <;>
      simp
  · simp

/-- C6 at concrete inputs: a common copy that fails, a flavor copy that fails,
and two copies that succeed. -/
theorem Compile_copies_common_then_flavor_witness :
    ((App.Compile (demoExternals (.ok none) (fun _ => some "disk full") none none)
        demoContext demoWorld).1 = .error "disk full" ∧
      (App.Compile (demoExternals (.ok none) (fun _ => some "disk full") none none)
        demoContext demoWorld).2.trace =
        [Event.CopyDir (App.compileData demoContext) "/out" "data/common"]) ∧
    (App.Compile (demoExternals (.ok none) noFlavorCopy none none) demoContext demoWorld).1 =
      .error "Asset data/aws-vpc not found" ∧
    (App.Compile (demoExternals (.ok none) (fun _ => none) none none) demoContext demoWorld).1 =
      .ok { DevDepFragmentPath := "/out/dev-dep/build/Vagrantfile.fragment" } :=
  ⟨(Compile_copies_common_then_flavor
      (demoExternals (.ok none) (fun _ => some "disk full") none none)
      demoContext demoWorld).1 "disk full" rfl,
   ((Compile_copies_common_then_flavor (demoExternals (.ok none) noFlavorCopy none none)
      demoContext demoWorld).2.1 rfl).2.1 "Asset data/aws-vpc not found" rfl,
   ((Compile_copies_common_then_flavor (demoExternals (.ok none) (fun _ => none) none none)
      demoContext demoWorld).2.1 rfl).2.2 rfl⟩

/-- C5 as stated fails: for the context with infrastructure ("aws","vpc"), when
the common copy succeeds and copying "data/aws-vpc" reports that the tree is
not found, `App.Compile` does not succeed: it returns that error and no
`CompileResult`. -/
theorem Compile_missing_flavor_fails :
    noFlavorCopy "data/common" = none ∧
    noFlavorCopy (App.flavorPrefix demoContext) = some "Asset data/aws-vpc not found" ∧
    (App.Compile (demoExternals (.ok none) noFlavorCopy none none) demoContext demoWorld).1 =
      .error "Asset data/aws-vpc not found" ∧
    ¬ ∃ r, (App.Compile (demoExternals (.ok none) noFlavorCopy none none)
        demoContext demoWorld).1 = .ok r := by
  refine ⟨by decide, by decide, rfl, ?_⟩
  rintro ⟨r, hr⟩
  have h : (App.Compile (demoExternals (.ok none) noFlavorCopy none none)
      demoContext demoWorld).1 = .error "Asset data/aws-vpc not found" := rfl
  rw [h] at hr
  cases hr

/-- C5, amended: when the common tree has been copied and copying the
"data/<infra>-<flavor>" tree reports an error `e` (that the tree does not exist
included) without writing anything, `App.Compile` fails: it returns `e`
unchanged and no `CompileResult`, and the output directory holds only the
common-tree output, that is, the outside state is the one the common copy
left. -/
theorem Compile_missing_flavor_returns_error (x : Externals σ) (ctx : app.Context) (w : World σ)
    (e : Error)
    (hcommon : (x.CopyDir (App.compileData ctx) ctx.Dir "data/common" w.ext).1 = none)
    (hflavor :
      x.CopyDir (App.compileData ctx) ctx.Dir
          ("data/" ++ ctx.Tuple.Infra ++ "-" ++ ctx.Tuple.InfraFlavor)
          (x.CopyDir (App.compileData ctx) ctx.Dir "data/common" w.ext).2 =
        (some e, (x.CopyDir (App.compileData ctx) ctx.Dir "data/common" w.ext).2)) :
    (App.Compile x ctx w).1 = .error e ∧
    (App.Compile x ctx w).2.ext =
      (x.CopyDir (App.compileData ctx) ctx.Dir "data/common" w.ext).2 := by
  unfold App.Compile
  simp only [World.copyDir, World.step, App.flavorPrefix]
  rcases hc : x.CopyDir (App.compileData ctx) ctx.Dir "data/common" w.ext with ⟨r1, s1⟩
  rw [hc] at hcommon hflavor
  dsimp only at hcommon hflavor ⊢
  subst hcommon
  dsimp only
  rw [hflavor]
  exact ⟨rfl, rfl⟩

/-- C5 amended, with the copier of the spec on an asset table that has a common
tree and no "data/aws-vpc" tree: `Compile` fails with the not-found error, and
the disk is the one the common copy left. -/
theorem Compile_missing_flavor_returns_error_witness :
    (App.Compile (specExternals demoAssets idleExternals)
        demoContext ⟨emptyDisk, []⟩).1 = .error "Asset data/aws-vpc not found" ∧
    (App.Compile (specExternals demoAssets idleExternals)
        demoContext ⟨emptyDisk, []⟩).2.ext =
      (specCopyDir demoAssets (App.compileData demoContext) "/out" "data/common" emptyDisk).2 :=
  Compile_missing_flavor_returns_error
    (specExternals demoAssets idleExternals)
    demoContext ⟨emptyDisk, []⟩ "Asset data/aws-vpc not found" rfl rfl

/-- The content of a path after a list of writes: the last write to the path,
or what the disk held before. -/
theorem applyWrites_apply (P : List (String × String)) (d : Disk) (q : String) :
    applyWrites P d q = (match lastWrite P q with
      | some c => some c
      | none => d q) := by
  induction P generalizing d with
  | nil => rfl
  | cons pc rest ih =>
    obtain ⟨p, c⟩ := pc
    simp only [applyWrites, lastWrite, ih]
    cases lastWrite rest q with
    | some c2 => rfl
    | none =>
      by_cases hq : q = p <;> simp [Disk.write, hq]

/-- Performing the same list of writes a second time changes nothing. -/
theorem applyWrites_idem (P : List (String × String)) (d : Disk) :
    applyWrites P (applyWrites P d) = applyWrites P d := by
  funext q
  rw [applyWrites_apply P (applyWrites P d), applyWrites_apply P d]
  cases lastWrite P q <;> rfl

/-- Performing two lists of writes one after the other. -/
theorem applyWrites_append (P Q : List (String × String)) (d : Disk) :
    applyWrites (P ++ Q) d = applyWrites Q (applyWrites P d) := by
  induction P generalizing d with
  | nil => rfl
  | cons pc rest ih =>
    obtain ⟨p, c⟩ := pc
    exact ih (d.write p c)

/-- The copy of a file list is a fixed list of writes with a fixed outcome,
whatever the disk holds. -/
theorem writeFiles_writes (t : Assets) (data : bindata.Data) (dst : String)
    (files : List (String × String)) :
    ∃ (P : List (String × String)) (r : Option Error),
      ∀ d, writeFiles t data dst files d = (r, applyWrites P d) := by
  induction files with
  | nil => exact ⟨[], none, fun _ => rfl⟩
  | cons f rest ih =>
    obtain ⟨rel, body⟩ := f
    obtain ⟨P, r, h⟩ := ih
    by_cases hw : t.writable (filepath.Join [dst, rel]) = true
    · refine ⟨(filepath.Join [dst, rel], t.render data.Context body) :: P, r, fun d => ?_⟩
      simp only [writeFiles, hw, if_true, h, applyWrites]
    · refine ⟨[], some ("write failure: " ++ filepath.Join [dst, rel]), fun d => ?_⟩
      simp only [writeFiles, hw, applyWrites]
      rfl

/-- The copier of the spec is a fixed list of writes with a fixed outcome. -/
theorem specCopyDir_writes (t : Assets) (data : bindata.Data) (dst pfx : String) :
    ∃ (P : List (String × String)) (r : Option Error),
      ∀ d, specCopyDir t data dst pfx d = (r, applyWrites P d) := by
  unfold specCopyDir
  cases t.AssetDir pfx with
  | error e => exact ⟨[], some e, fun _ => rfl⟩
  | ok files => exact writeFiles_writes t data dst files

/-- With a copier that is a fixed list of writes per tree, `App.Compile` is a
fixed list of writes with a fixed result. -/
theorem Compile_writes (x : Externals Disk) (ctx : app.Context)
    (hx : ∀ pfx, ∃ (P : List (String × String)) (r : Option Error),
      ∀ d, x.CopyDir (App.compileData ctx) ctx.Dir pfx d = (r, applyWrites P d)) :
    ∃ (P : List (String × String)) (r : Except Error app.CompileResult),
      ∀ w, (App.Compile x ctx w).1 = r ∧ (App.Compile x ctx w).2.ext = applyWrites P w.ext := by
  obtain ⟨P1, r1, h1⟩ := hx "data/common"
  obtain ⟨P2, r2, h2⟩ := hx (App.flavorPrefix ctx)
  cases r1 with
  | some e1 =>
    refine ⟨P1, .error e1, fun w => ?_⟩
    simp [App.Compile, World.copyDir, World.step, h1]
  | none =>
    cases r2 with
    | some e2 =>
      refine ⟨P1 ++ P2, .error e2, fun w => ?_⟩
      simp [App.Compile, World.copyDir, World.step, h1, h2, applyWrites_append]
    | none =>
      refine ⟨P1 ++ P2,
        .ok { DevDepFragmentPath :=
                filepath.Join [ctx.Dir, "dev-dep/build/Vagrantfile.fragment"] }, fun w => ?_⟩
      simp [App.Compile, World.copyDir, World.step, h1, h2, applyWrites_append]

/-- C7: with the template copier as the spec describes it, calling
`App.Compile` twice with the identical context is idempotent: the second run,
started on what the first run left, returns the same result as the first, and
the disk after the second run is identical, path by path and byte by byte, to
the disk after the first run. -/
theorem Compile_idempotent (t : Assets) (x : Externals Disk) (ctx : app.Context)
    (w : World Disk) :
    (App.Compile (specExternals t x) ctx (App.Compile (specExternals t x) ctx w).2).1 =
      (App.Compile (specExternals t x) ctx w).1 ∧
    (App.Compile (specExternals t x) ctx (App.Compile (specExternals t x) ctx w).2).2.ext =
      (App.Compile (specExternals t x) ctx w).2.ext := by
  obtain ⟨P, r, h⟩ := Compile_writes (specExternals t x) ctx
    (fun pfx => specCopyDir_writes t (App.compileData ctx) ctx.Dir pfx)
  refine ⟨?_, ?_⟩
  · rw [(h _).1, (h w).1]
  · rw [(h _).2, (h w).2, applyWrites_idem]

/-- C7 at a concrete input: with a flavor tree that replaces one of the common
files, the first and the second run both succeed, and after either run the
replaced file holds the flavor text, rendered. -/
theorem Compile_idempotent_witness :
    ((App.Compile (specExternals flavorAssets idleExternals) demoContext
        (App.Compile (specExternals flavorAssets idleExternals) demoContext
          ⟨emptyDisk, []⟩).2).1 =
      (App.Compile (specExternals flavorAssets idleExternals) demoContext ⟨emptyDisk, []⟩).1 ∧
     (App.Compile (specExternals flavorAssets idleExternals) demoContext
        (App.Compile (specExternals flavorAssets idleExternals) demoContext
          ⟨emptyDisk, []⟩).2).2.ext =
      (App.Compile (specExternals flavorAssets idleExternals) demoContext ⟨emptyDisk, []⟩).2.ext) ∧
    (App.Compile (specExternals flavorAssets idleExternals) demoContext ⟨emptyDisk, []⟩).1 =
      .ok { DevDepFragmentPath := "/out/dev-dep/build/Vagrantfile.fragment" } ∧
    (App.Compile (specExternals flavorAssets idleExternals) demoContext
        ⟨emptyDisk, []⟩).2.ext "/out/build/template.json" = some "vpc builder for svc" ∧
    (App.Compile (specExternals flavorAssets idleExternals) demoContext
        (App.Compile (specExternals flavorAssets idleExternals) demoContext
          ⟨emptyDisk, []⟩).2).2.ext "/out/build/template.json" = some "vpc builder for svc" ∧
    (App.Compile (specExternals flavorAssets idleExternals) demoContext
        ⟨emptyDisk, []⟩).2.ext "/out/dev/Vagrantfile" = some "box for svc" :=
  ⟨Compile_idempotent flavorAssets idleExternals demoContext ⟨emptyDisk, []⟩,
   rfl, by decide, by decide, by decide⟩

end Compile

/-! ## `Meta.Core` and `Meta.FlagSet` -/

section Meta

variable {ρ κ : Type}

/-- C8: for every Appfile `f`, `Meta.Core` builds the core from a configuration
whose `Appfile` is `f`, whose `OutputDir` is `Join(Dir(f.Path), d)` with `d` the
`-output` value when it is non-empty and "otto" otherwise, and whose other
fields are those of `m.CoreConfig`; `m`, and with it the `Appfile` and
`OutputDir` of `m.CoreConfig`, is left unchanged. -/
theorem Core_builds_from_copy (NewCore : otto.CoreConfig ρ → Except Error κ) (m : Meta ρ)
    (f : appfile.File) (c : otto.CoreConfig ρ) (hc : m.CoreConfig = some c) :
    Meta.Core NewCore m f =
      some (NewCore
        { Appfile := some f
          OutputDir :=
            filepath.Join [filepath.Dir f.Path, if m.flagOutputDir = "" then "otto" else m.flagOutputDir]
          rest := c.rest }, m) ∧
    (Meta.Core NewCore m f).map (fun r => r.2.CoreConfig) = some (some c) := by
  unfold Meta.Core
  rw [hc]
  by_cases h : m.flagOutputDir = "" <;> simp [h, hc, DefaultOutputDir]

/-- C8 at concrete inputs: the Appfile "/proj/Appfile" with no `-output` value
gives the output directory "/proj/otto", and with `-output build-out` it gives
"/proj/build-out"; the stored configuration keeps its own values. -/
theorem Core_builds_from_copy_witness :
    Meta.Core Except.ok (demoMeta "") demoFile =
      some (.ok { Appfile := some demoFile, OutputDir := "/proj/otto", rest := 7 }, demoMeta "") ∧
    Meta.Core Except.ok (demoMeta "build-out") demoFile =
      some (.ok { Appfile := some demoFile, OutputDir := "/proj/build-out", rest := 7 },
        demoMeta "build-out") ∧
    (Meta.Core (κ := otto.CoreConfig Nat) Except.ok (demoMeta "") demoFile).map
      (fun r => r.2.CoreConfig) = some (some ⟨none, "unset", 7⟩) :=
  ⟨(Core_builds_from_copy Except.ok (demoMeta "") demoFile demoCoreConfig rfl).1,
   (Core_builds_from_copy Except.ok (demoMeta "build-out") demoFile demoCoreConfig rfl).1,
   (Core_builds_from_copy Except.ok (demoMeta "") demoFile demoCoreConfig rfl).2⟩

/-- A number has bit `k` in common with `2 ^ k` exactly when its bit `k` is set. -/
theorem and_two_pow_ne_zero (fs k : Nat) : fs &&& 2 ^ k ≠ 0 ↔ fs.testBit k = true := by
  constructor
  · intro h
    by_contra hb
    apply h
    apply Nat.eq_of_testBit_eq
    intro i
    simp only [Nat.testBit_and, Nat.testBit_two_pow, Nat.zero_testBit]
    by_cases hi : k = i
    · subst hi; simp [hb]
    · simp [hi]
  · intro hb h
    have := congrArg (fun n => Nat.testBit n k) h
    simp [Nat.testBit_and, Nat.testBit_two_pow, hb] at this

/-- Masking with 1 gives 1 exactly when it does not give 0. -/
theorem and_one_eq_one_iff (k : Nat) : k &&& 1 = 1 ↔ k &&& 2 ^ 0 ≠ 0 := by
  show k &&& 1 = 1 ↔ k &&& 1 ≠ 0
  rw [Nat.and_one_is_mod]
  omega

/-- Masking with 2 gives 2 exactly when it does not give 0. -/
theorem and_two_eq_two_iff (k : Nat) : k &&& 2 = 2 ↔ k &&& 2 ^ 1 ≠ 0 := by
  show k &&& 2 = 2 ↔ k &&& 2 ≠ 0
  constructor
  · intro h; rw [h]; decide
  · intro h
    have hle : k &&& 2 ≤ 2 := Nat.and_le_right
    have h1 : k &&& 2 ≠ 1 := by
      intro h1
      have := congrArg (fun j => Nat.testBit j 0) h1
      simp [Nat.testBit_and] at this
    omega

/-- The flags `Meta.FlagSet` registers, by the two low bits of `fs`. -/
theorem FlagSet_formal (m : Meta ρ) (n : String) (fs : FlagSetFlags) :
    (Meta.FlagSet m n fs).1.formal =
      (if fs.testBit 0 then [⟨"appfile", "", "", flag.Target.flagAppfile⟩] else []) ++
      (if fs.testBit 1 then [⟨"output", "", "", flag.Target.flagOutputDir⟩] else []) := by
  have h0 : fs &&& FlagSetAppfile ≠ 0 ↔ fs.testBit 0 = true := and_two_pow_ne_zero fs 0
  have h1 : fs &&& FlagSetOutputDir ≠ 0 ↔ fs.testBit 1 = true := and_two_pow_ne_zero fs 1
  unfold Meta.FlagSet
  by_cases b0 : fs.testBit 0 = true <;> by_cases b1 : fs.testBit 1 = true <;>
    simp [h0, h1, b0, b1, Meta.StringVar, flag.NewFlagSet]

/-- C10: for every `FlagSetFlags` value `fs`, `Meta.FlagSet` registers the
"appfile" flag if and only if `fs` has the `FlagSetAppfile` bit (bit 0) set and
the "output" flag if and only if `fs` has the `FlagSetOutputDir` bit (bit 1)
set; `FlagSetAppfile` and `FlagSetOutputDir` are the distinct non-zero
single-bit values 2^0 and 2^1, so every choice of the two flags is selected by
some `fs`, and `FlagSetNone` registers neither. -/
theorem FlagSet_registers_by_bit (m : Meta ρ) (n : String) (fs : FlagSetFlags) :
    ((Meta.FlagSet m n fs).1.registers "appfile" = true ↔ fs.testBit 0 = true) ∧
    ((Meta.FlagSet m n fs).1.registers "output" = true ↔ fs.testBit 1 = true) ∧
    ((Meta.FlagSet m n fs).1.registers "appfile" = true ↔
      fs &&& FlagSetAppfile = FlagSetAppfile) ∧
    ((Meta.FlagSet m n fs).1.registers "output" = true ↔
      fs &&& FlagSetOutputDir = FlagSetOutputDir) ∧
    FlagSetAppfile = 2 ^ 0 ∧ FlagSetOutputDir = 2 ^ 1 ∧
    FlagSetAppfile ≠ FlagSetOutputDir ∧ FlagSetAppfile ≠ 0 ∧ FlagSetOutputDir ≠ 0 ∧
    FlagSetAppfile &&& FlagSetOutputDir = 0 ∧
    (Meta.FlagSet m n FlagSetNone).1.formal = [] ∧
    (∀ a b : Bool, ∃ gs : FlagSetFlags,
      (Meta.FlagSet m n gs).1.registers "appfile" = a ∧
      (Meta.FlagSet m n gs).1.registers "output" = b) := by
  have reg : ∀ gs : FlagSetFlags,
      (Meta.FlagSet m n gs).1.registers "appfile" = gs.testBit 0 ∧
      (Meta.FlagSet m n gs).1.registers "output" = gs.testBit 1 := by
    intro gs
    unfold flag.FlagSet.registers
    rw [FlagSet_formal]
    cases gs.testBit 0 <;> cases gs.testBit 1 <;> exact ⟨by decide, by decide⟩
  have e0 : fs &&& FlagSetAppfile = FlagSetAppfile ↔ fs.testBit 0 = true := by
    rw [← and_two_pow_ne_zero fs 0]
    exact and_one_eq_one_iff fs
  have e1 : fs &&& FlagSetOutputDir = FlagSetOutputDir ↔ fs.testBit 1 = true := by
    rw [← and_two_pow_ne_zero fs 1]
    exact and_two_eq_two_iff fs
  refine ⟨by rw [(reg fs).1], by rw [(reg fs).2], by rw [(reg fs).1, e0], by rw [(reg fs).2, e1],
    rfl, rfl, by decide, by decide, by decide, by decide, ?_, ?_⟩
  · rw [FlagSet_formal]; rfl
  · intro a b
    refine ⟨(if a then FlagSetAppfile else 0) ||| (if b then FlagSetOutputDir else 0), ?_⟩
    rw [(reg _).1, (reg _).2]
    cases a <;> cases b <;> exact ⟨by decide, by decide⟩

end Meta

end Otto
